import Mathlib

/-!
Verification development for the gw-project currency-exchange system.

The embedding translates the Go source into Lean:
* amounts and rates are `ℚ` (the Go code uses `float64` / SQL `DECIMAL`;
  the rational model keeps the arithmetic exact),
* the per-user wallet row (`wallets` table: columns usd, rub, eur) is the
  structure `Balance`,
* Go maps `map[string]float64` and the `exchange_rates` SQL table are
  association lists `List (String × ℚ)` read through `ratesLookup`
  (with `mapGet` mirroring Go's zero-defaulting map indexing),
* fallible Go functions returning `(T, error)` become `Except String T`,
* database mutation is explicit state passing: a function that may commit
  a mutation returns the new store/balance alongside its result.
-/

/-- Association-list lookup: first entry with the given key, mirroring a
keyed SQL row lookup / Go map access. -/
def ratesLookup : List (String × ℚ) → String → Option ℚ
  | [], _ => none
  | p :: rest, c => if p.1 = c then some p.2 else ratesLookup rest c

/-- Go map read `rates[c]`: a missing key yields the zero value. -/
def mapGet (rates : List (String × ℚ)) (c : String) : ℚ :=
  (ratesLookup rates c).getD 0

/-- Per-user wallet row (models.Balance / the wallets table columns). -/
structure Balance where
  usd : ℚ
  rub : ℚ
  eur : ℚ
deriving DecidableEq, Repr

/-- models.ExchangeResponse. -/
structure ExchangeResponse where
  message : String
  exchangedAmount : ℚ
  newBalance : Balance
  rate : ℚ
deriving DecidableEq, Repr

/-- services.isValidCurrency: the switch over "USD", "RUB", "EUR". -/
def isValidCurrency (currency : String) : Bool :=
  currency = "USD" ∨ currency = "RUB" ∨ currency = "EUR"

/-- services.getBalanceByCurrency. -/
def getBalanceByCurrency (b : Balance) (currency : String) : Except String ℚ :=
  if currency = "USD" then .ok b.usd
  else if currency = "RUB" then .ok b.rub
  else if currency = "EUR" then .ok b.eur
  else .error ("неподдерживаемая валюта: " ++ currency)

/-- walletRepository.updateBalanceTx: the per-currency SQL
`UPDATE wallets SET x = x + $1 WHERE user_id = $2`.  The schema puts no
lower bound on the column, so the addition is unconditional. -/
def updateBalanceTx (b : Balance) (currency : String) (amount : ℚ) :
    Except String Balance :=
  if currency = "USD" then .ok { b with usd := b.usd + amount }
  else if currency = "RUB" then .ok { b with rub := b.rub + amount }
  else if currency = "EUR" then .ok { b with eur := b.eur + amount }
  else .error ("неподдерживаемая валюта: " ++ currency)

/-- walletRepository.UpdateBalance: same SQL as updateBalanceTx, outside an
explicit transaction. -/
def repoUpdateBalance (b : Balance) (currency : String) (amount : ℚ) :
    Except String Balance :=
  updateBalanceTx b currency amount

/-- walletRepository.Transfer: debit the sender, credit the receiver,
inside one transaction.  An error from either leg rolls the whole
transaction back (the caller keeps the prior balances). -/
def repoTransfer (bFrom bTo : Balance) (currency : String) (amount : ℚ) :
    Except String (Balance × Balance) :=
  match updateBalanceTx bFrom currency (-amount) with
  | .error e => .error ("ошибка списания у отправителя: " ++ e)
  | .ok fromBalance =>
    match updateBalanceTx bTo currency amount with
    | .error e => .error ("ошибка зачисления получателю: " ++ e)
    | .ok toBalance => .ok (fromBalance, toBalance)

/-- walletRepository.Exchange: inside one transaction, debit `amount` of the
source currency, then credit `amount * rate` of the target currency. -/
def repoExchange (b : Balance) (fromCurrency toCurrency : String)
    (amount rate : ℚ) : Except String Balance :=
  match updateBalanceTx b fromCurrency (-amount) with
  | .error e => .error ("ошибка списания " ++ fromCurrency ++ ": " ++ e)
  | .ok b₁ =>
    match updateBalanceTx b₁ toCurrency (amount * rate) with
    | .error e => .error ("ошибка зачисления " ++ toCurrency ++ ": " ++ e)
    | .ok b₂ => .ok b₂

/-- ExchangeService.filterRates: keep only the entries for USD, EUR, RUB
(in that iteration order), skipping absent keys. -/
def filterRates (rates : List (String × ℚ)) : List (String × ℚ) :=
  ["USD", "EUR", "RUB"].filterMap
    (fun c => (ratesLookup rates c).map (fun r => (c, r)))

/-- ExchangeService.GetRate: identity pairs return 1 before any quote
access; otherwise the filtered quote map is read, a zero (or absent) USD or
EUR quote aborts, and the pair is resolved through RUB as base. -/
def GetRate (quotes : List (String × ℚ)) (fromCurrency toCurrency : String) :
    Except String ℚ :=
  if fromCurrency = toCurrency then .ok 1
  else
    let rates := filterRates quotes
    if mapGet rates "USD" = 0 ∨ mapGet rates "EUR" = 0 then
      .error "базовые курсы недоступны"
    else if fromCurrency = "RUB" ∧ toCurrency = "USD" then
      .ok (1 / mapGet rates "USD")
    else if fromCurrency = "USD" ∧ toCurrency = "RUB" then
      .ok (mapGet rates "USD")
    else if fromCurrency = "RUB" ∧ toCurrency = "EUR" then
      .ok (1 / mapGet rates "EUR")
    else if fromCurrency = "EUR" ∧ toCurrency = "RUB" then
      .ok (mapGet rates "EUR")
    else if fromCurrency = "USD" ∧ toCurrency = "EUR" then
      .ok ((1 / mapGet rates "EUR") * mapGet rates "USD")
    else if fromCurrency = "EUR" ∧ toCurrency = "USD" then
      .ok ((1 / mapGet rates "USD") * mapGet rates "EUR")
    else .error "неподдерживаемая валютная пара"

/-- WalletService.Exchange's maxRates table (0.05 = 1/20). -/
def maxRates : List (String × ℚ) :=
  [("RUB/USD", 1/20), ("USD/RUB", 100), ("EUR/USD", 2), ("USD/EUR", 2)]

/-- WalletService.Exchange given the already-computed outcome of
rateService.GetRate.  The returned pair is (service result, wallet row
after the call): the repository call commits its mutation, so the row
after the call differs from `b` exactly when repoExchange succeeded —
including the branch where the maxRates check fails AFTER the commit. -/
def serviceExchange (userID : Int) (fromCurrency toCurrency : String)
    (amount : ℚ) (rateResult : Except String ℚ) (b : Balance) :
    Except String ExchangeResponse × Balance :=
  if userID ≤ 0 then (.error "неверный ID пользователя", b)
  else if isValidCurrency fromCurrency = false then
    (.error ("неподдерживаемая исходная валюта: " ++ fromCurrency), b)
  else if isValidCurrency toCurrency = false then
    (.error ("неподдерживаемая целевая валюта: " ++ toCurrency), b)
  else if amount ≤ 0 then (.error "сумма должна быть положительной", b)
  else
    match rateResult with
    | .error e => (.error ("ошибка получения курса обмена: " ++ e), b)
    | .ok rate =>
      if (fromCurrency = "RUB" ∧ toCurrency = "USD" ∧ rate > 1/20) ∨
         (fromCurrency = "USD" ∧ toCurrency = "RUB" ∧ rate < 10) then
        (.error "нереалистичный курс обмена, проверьте сервис", b)
      else
        match repoExchange b fromCurrency toCurrency amount rate with
        | .error e => (.error ("ошибка обмена: " ++ e), b)
        | .ok newBalance =>
          match ratesLookup maxRates (fromCurrency ++ "/" ++ toCurrency) with
          | some maxRate =>
            if rate > maxRate then
              (.error "слишком высокий курс обмена", newBalance)
            else
              (.ok { message := "Обмен выполнен успешно",
                     exchangedAmount := amount * rate,
                     newBalance := newBalance, rate := rate }, newBalance)
          | none =>
            (.ok { message := "Обмен выполнен успешно",
                   exchangedAmount := amount * rate,
                   newBalance := newBalance, rate := rate }, newBalance)

/-- WalletService.Exchange composed with ExchangeService.GetRate over a
given fetched quote map. -/
def walletExchange (quotes : List (String × ℚ)) (userID : Int)
    (fromCurrency toCurrency : String) (amount : ℚ) (b : Balance) :
    Except String ExchangeResponse × Balance :=
  serviceExchange userID fromCurrency toCurrency amount
    (GetRate quotes fromCurrency toCurrency) b

/-- WalletService.Deposit. -/
def serviceDeposit (userID : Int) (currency : String) (amount : ℚ)
    (b : Balance) : Except String Balance :=
  if userID ≤ 0 then .error "неверный ID пользователя"
  else if isValidCurrency currency = false then
    .error ("неподдерживаемая валюта: " ++ currency)
  else if amount ≤ 0 then .error "сумма должна быть положительной"
  else repoUpdateBalance b currency amount

/-- WalletService.Withdraw: the only operation with an explicit
insufficient-funds check before the mutation. -/
def serviceWithdraw (userID : Int) (currency : String) (amount : ℚ)
    (b : Balance) : Except String Balance :=
  if userID ≤ 0 then .error "неверный ID пользователя"
  else if isValidCurrency currency = false then
    .error ("неподдерживаемая валюта: " ++ currency)
  else if amount ≤ 0 then .error "сумма должна быть положительной"
  else
    match getBalanceByCurrency b currency with
    | .error e => .error e
    | .ok currentBalance =>
      if currentBalance < amount then .error "недостаточно средств"
      else repoUpdateBalance b currency (-amount)

/-- One row of the exchanger's SQL
`INSERT ... ON CONFLICT (currency) DO UPDATE SET rate = $2`: overwrite the
existing row for the currency, or append a new one. -/
def upsertRate (store : List (String × ℚ)) (c : String) (r : ℚ) :
    List (String × ℚ) :=
  if (ratesLookup store c).isSome then
    store.map (fun p => if p.1 = c then (c, r) else p)
  else store ++ [(c, r)]

/-- The upsert loop of PostgresStorage.UpdateRatesFromCB over all fetched
entries. -/
def upsertAll (store : List (String × ℚ)) (fetched : List (String × ℚ)) :
    List (String × ℚ) :=
  fetched.foldl (fun s p => upsertRate s p.1 p.2) store

/-- PostgresStorage.UpdateRatesFromCB: an unset API URL or a failed fetch
returns an error before any store mutation; a successful fetch upserts
every fetched entry inside one transaction.  The pair is (result, store
after the call). -/
def updateRatesFromCB (apiURL : String)
    (fetchResult : Except String (List (String × ℚ)))
    (store : List (String × ℚ)) :
    Except String Unit × List (String × ℚ) :=
  if apiURL = "" then (.error "URL API не настроен", store)
  else
    match fetchResult with
    | .error e => (.error ("ошибка получения курсов: " ++ e), store)
    | .ok rates => (.ok (), upsertAll store rates)

/-- The USD branch of the exchanger's PostgresStorage.GetRate: look up the
non-USD endpoint's stored quote; direct quote when converting from USD,
otherwise the reciprocal `1 / rate` — computed with no zero guard. -/
def usdBranch (store : List (String × ℚ)) (fromCurrency toCurrency : String) :
    Except String ℚ :=
  let targetCurrency := if fromCurrency = "USD" then toCurrency else fromCurrency
  match ratesLookup store targetCurrency with
  | none => .error ("курс для " ++ targetCurrency ++ " не найден")
  | some rate => if fromCurrency = "USD" then .ok rate else .ok (1 / rate)

/-- PostgresStorage.GetRate.  In the cross branch the source recursively
calls itself with "USD" as one endpoint; both recursive calls satisfy the
USD-branch guard (the endpoints differ and one is "USD"), so they are
inlined here as `usdBranch`, preserving the source's first-error
precedence. -/
def exchangerGetRate (store : List (String × ℚ))
    (fromCurrency toCurrency : String) : Except String ℚ :=
  if fromCurrency = toCurrency then .ok 1
  else if fromCurrency = "USD" ∨ toCurrency = "USD" then
    usdBranch store fromCurrency toCurrency
  else
    match usdBranch store fromCurrency "USD", usdBranch store "USD" toCurrency with
    | .error e, _ => .error e
    | .ok _, .error e => .error e
    | .ok r₁, .ok r₂ => .ok (r₁ * r₂)

/-! ## Helper lemmas -/

theorem ratesLookup_filterRates (quotes : List (String × ℚ)) (c : String)
    (hc : c = "USD" ∨ c = "EUR" ∨ c = "RUB") :
    ratesLookup (filterRates quotes) c = ratesLookup quotes c := by
  rcases hc with rfl | rfl | rfl <;>
    cases h₁ : ratesLookup quotes "USD" <;> cases h₂ : ratesLookup quotes "EUR" <;>
      cases h₃ : ratesLookup quotes "RUB" <;>
      simp +decide [filterRates, h₁, h₂, h₃, ratesLookup]

theorem mapGet_filterRates (quotes : List (String × ℚ)) (c : String)
    (hc : c = "USD" ∨ c = "EUR" ∨ c = "RUB") :
    mapGet (filterRates quotes) c = mapGet quotes c := by
  unfold mapGet
  rw [ratesLookup_filterRates quotes c hc]

theorem GetRate_rub_usd (quotes : List (String × ℚ))
    (hu : mapGet quotes "USD" ≠ 0) (he : mapGet quotes "EUR" ≠ 0) :
    GetRate quotes "RUB" "USD" = .ok (1 / mapGet quotes "USD") := by
  have h₁ := mapGet_filterRates quotes "USD" (by simp)
  have h₂ := mapGet_filterRates quotes "EUR" (by simp)
  simp +decide [GetRate, h₁, h₂, hu, he]

theorem GetRate_usd_rub (quotes : List (String × ℚ))
    (hu : mapGet quotes "USD" ≠ 0) (he : mapGet quotes "EUR" ≠ 0) :
    GetRate quotes "USD" "RUB" = .ok (mapGet quotes "USD") := by
  have h₁ := mapGet_filterRates quotes "USD" (by simp)
  have h₂ := mapGet_filterRates quotes "EUR" (by simp)
  simp +decide [GetRate, h₁, h₂, hu, he]

theorem GetRate_rub_eur (quotes : List (String × ℚ))
    (hu : mapGet quotes "USD" ≠ 0) (he : mapGet quotes "EUR" ≠ 0) :
    GetRate quotes "RUB" "EUR" = .ok (1 / mapGet quotes "EUR") := by
  have h₁ := mapGet_filterRates quotes "USD" (by simp)
  have h₂ := mapGet_filterRates quotes "EUR" (by simp)
  simp +decide [GetRate, h₁, h₂, hu, he]

theorem GetRate_eur_rub (quotes : List (String × ℚ))
    (hu : mapGet quotes "USD" ≠ 0) (he : mapGet quotes "EUR" ≠ 0) :
    GetRate quotes "EUR" "RUB" = .ok (mapGet quotes "EUR") := by
  have h₁ := mapGet_filterRates quotes "USD" (by simp)
  have h₂ := mapGet_filterRates quotes "EUR" (by simp)
  simp +decide [GetRate, h₁, h₂, hu, he]

theorem GetRate_usd_eur (quotes : List (String × ℚ))
    (hu : mapGet quotes "USD" ≠ 0) (he : mapGet quotes "EUR" ≠ 0) :
    GetRate quotes "USD" "EUR" =
      .ok ((1 / mapGet quotes "EUR") * mapGet quotes "USD") := by
  have h₁ := mapGet_filterRates quotes "USD" (by simp)
  have h₂ := mapGet_filterRates quotes "EUR" (by simp)
  simp +decide [GetRate, h₁, h₂, hu, he]

theorem GetRate_eur_usd (quotes : List (String × ℚ))
    (hu : mapGet quotes "USD" ≠ 0) (he : mapGet quotes "EUR" ≠ 0) :
    GetRate quotes "EUR" "USD" =
      .ok ((1 / mapGet quotes "USD") * mapGet quotes "EUR") := by
  have h₁ := mapGet_filterRates quotes "USD" (by simp)
  have h₂ := mapGet_filterRates quotes "EUR" (by simp)
  simp +decide [GetRate, h₁, h₂, hu, he]

theorem GetRate_id (quotes : List (String × ℚ)) (c : String) :
    GetRate quotes c c = .ok 1 := by
  simp [GetRate]

theorem ratesLookup_append (s t : List (String × ℚ)) (c : String) :
    ratesLookup (s ++ t) c =
      ((ratesLookup s c).orElse fun _ => ratesLookup t c) := by
  induction s with
  | nil => simp [ratesLookup]
  | cons p rest ih =>
    by_cases h : p.1 = c <;> simp [ratesLookup, h, ih]

theorem ratesLookup_upsertRate_self (s : List (String × ℚ)) (c : String)
    (r : ℚ) : ratesLookup (upsertRate s c r) c = some r := by
  unfold upsertRate
  by_cases h : (ratesLookup s c).isSome
  · rw [if_pos h]
    induction s with
    | nil => simp [ratesLookup] at h
    | cons p rest ih =>
      by_cases hp : p.1 = c
      · simp [ratesLookup, hp]
      · simp only [ratesLookup, hp, if_false] at h
        simp [ratesLookup, hp, ih h]
  · rw [if_neg h]
    rw [ratesLookup_append]
    rw [Option.not_isSome_iff_eq_none] at h
    simp [h, ratesLookup]

theorem ratesLookup_map_update (s : List (String × ℚ)) (c : String) (r : ℚ)
    (d : String) (hdc : d ≠ c) :
    ratesLookup (s.map fun p => if p.1 = c then (c, r) else p) d =
      ratesLookup s d := by
  induction s with
  | nil => simp [ratesLookup]
  | cons p rest ih =>
    by_cases hp : p.1 = c
    · simp [ratesLookup, hp, Ne.symm hdc, ih]
    · simp [ratesLookup, hp, ih]

theorem ratesLookup_upsertRate_other (s : List (String × ℚ)) (c : String)
    (r : ℚ) (d : String) (hdc : d ≠ c) :
    ratesLookup (upsertRate s c r) d = ratesLookup s d := by
  unfold upsertRate
  by_cases h : (ratesLookup s c).isSome
  · rw [if_pos h]
    exact ratesLookup_map_update s c r d hdc
  · rw [if_neg h, ratesLookup_append]
    cases hs : ratesLookup s d <;> simp [Option.orElse, ratesLookup, Ne.symm hdc]

theorem ratesLookup_eq_none_of_not_mem (s : List (String × ℚ)) (c : String)
    (h : c ∉ s.map Prod.fst) : ratesLookup s c = none := by
  induction s with
  | nil => rfl
  | cons p rest ih =>
    simp only [List.map_cons, List.mem_cons] at h
    push_neg at h
    simp [ratesLookup, Ne.symm h.1, ih h.2]

theorem ratesLookup_upsertAll (store fetched : List (String × ℚ)) (c : String)
    (hnd : (fetched.map Prod.fst).Nodup) :
    ratesLookup (upsertAll store fetched) c =
      ((ratesLookup fetched c).orElse fun _ => ratesLookup store c) := by
  induction fetched generalizing store with
  | nil => simp [upsertAll, ratesLookup, Option.orElse]
  | cons p rest ih =>
    simp only [List.map_cons, List.nodup_cons] at hnd
    have hstep : upsertAll store (p :: rest) =
        upsertAll (upsertRate store p.1 p.2) rest := rfl
    rw [hstep, ih _ hnd.2]
    by_cases hc : p.1 = c
    · subst hc
      rw [ratesLookup_eq_none_of_not_mem rest p.1 hnd.1,
        ratesLookup_upsertRate_self]
      simp [ratesLookup, Option.orElse]
    · rw [ratesLookup_upsertRate_other store p.1 p.2 c (Ne.symm hc)]
      simp [ratesLookup, hc, Option.orElse]

/-! ## Claim theorems -/

/-- Claim C1: the spec says an exchange whose debit exceeds the source-currency
balance fails with InsufficientFunds and leaves every balance unchanged.  The
code has no such check anywhere on the exchange path: with quotes
USD=80, EUR=90 and balance USD=50, exchanging 100 USD to EUR succeeds and
drives the USD balance to -50. -/
theorem overdraft_exchange_commits_negative_balance :
    walletExchange [("USD", 80), ("EUR", 90), ("RUB", 1)] 1 "USD" "EUR" 100
        ⟨50, 0, 0⟩ =
      (.ok { message := "Обмен выполнен успешно", exchangedAmount := 800/9,
             newBalance := ⟨-50, 0, 800/9⟩, rate := 8/9 },
       ⟨-50, 0, 800/9⟩) := by
  norm_num +decide [walletExchange, serviceExchange, GetRate, repoExchange,
    updateBalanceTx, filterRates, mapGet, ratesLookup, isValidCurrency, maxRates]

/-- Claim C2: the spec says the plausible-band check runs after rate
resolution and before any ledger mutation, so an implausible rate aborts with
no balance change.  The maxRates check in WalletService.Exchange runs AFTER
repoExchange has committed: with quotes USD=5, EUR=2 the resolved USD→EUR
rate 5/2 exceeds the band bound 2; the service returns an error, yet the
balance has already moved from (100,0,0) to (90,0,25). -/
theorem implausible_rate_check_runs_after_commit :
    (walletExchange [("USD", 5), ("EUR", 2)] 1 "USD" "EUR" 10 ⟨100, 0, 0⟩).1 =
        .error "слишком высокий курс обмена" ∧
      (walletExchange [("USD", 5), ("EUR", 2)] 1 "USD" "EUR" 10 ⟨100, 0, 0⟩).2 =
        ⟨90, 0, 25⟩ ∧
      (⟨90, 0, 25⟩ : Balance) ≠ ⟨100, 0, 0⟩ := by
  refine ⟨?_, ?_, by decide⟩ <;>
    norm_num +decide [walletExchange, serviceExchange, GetRate, repoExchange,
      updateBalanceTx, filterRates, mapGet, ratesLookup, isValidCurrency,
      maxRates]

/-- Claim C3: the spec says every balance-mutating operation preserves
non-negative balances.  Transfer (like Exchange) performs the debit with no
pre-commit check: transferring 10 USD from a sender whose USD balance is 0
succeeds and leaves the sender at -10. -/
theorem transfer_overdraft_breaks_nonnegativity :
    repoTransfer ⟨0, 0, 0⟩ ⟨0, 0, 0⟩ "USD" 10 =
      .ok (⟨-10, 0, 0⟩, ⟨10, 0, 0⟩) := by
  norm_num +decide [repoTransfer, updateBalanceTx]

/-- Claim C4 counterexample: with quotes RUB=1, USD=80, EUR=90 the spec's
scenario expects resolveRate(USD,EUR) = 90/80 = 1.125 and a final EUR balance
of 112.5; the code computes (1/EUR)·USD = 80/90 instead, so neither holds. -/
theorem usd_eur_rate_not_spec_scenario :
    GetRate [("USD", 80), ("EUR", 90), ("RUB", 1)] "USD" "EUR" ≠
        .ok (90/80) ∧
      (walletExchange [("USD", 80), ("EUR", 90), ("RUB", 1)] 1 "USD" "EUR" 100
          ⟨150, 0, 0⟩).2 ≠ ⟨50, 0, 225/2⟩ := by
  have h₁ : GetRate [("USD", (80:ℚ)), ("EUR", 90), ("RUB", 1)] "USD" "EUR" =
      .ok (8/9) := by
    norm_num +decide [GetRate, filterRates, mapGet, ratesLookup]
  have h₂ : (walletExchange [("USD", (80:ℚ)), ("EUR", 90), ("RUB", 1)] 1 "USD"
      "EUR" 100 ⟨150, 0, 0⟩).2 = ⟨50, 0, 800/9⟩ := by
    norm_num +decide [walletExchange, serviceExchange, GetRate, repoExchange,
      updateBalanceTx, filterRates, mapGet, ratesLookup, isValidCurrency,
      maxRates]
  rw [h₁, h₂]
  constructor
  · intro h
    simp only [Except.ok.injEq] at h
    norm_num at h
  · intro h
    simp only [Balance.mk.injEq] at h
    norm_num at h

/-- Claim C4 as amended: with quotes RUB=1, USD=80, EUR=90 the code resolves
the (USD, EUR) rate through RUB as 80/90 = 8/9 ≈ 0.889, and exchanging
100 USD → EUR for balance (150, 0, 0) yields (50, 0, 800/9 ≈ 88.89). -/
theorem usd_eur_rate_code_scenario :
    GetRate [("USD", 80), ("EUR", 90), ("RUB", 1)] "USD" "EUR" = .ok (80/90) ∧
      walletExchange [("USD", 80), ("EUR", 90), ("RUB", 1)] 1 "USD" "EUR" 100
          ⟨150, 0, 0⟩ =
        (.ok { message := "Обмен выполнен успешно", exchangedAmount := 800/9,
               newBalance := ⟨50, 0, 800/9⟩, rate := 8/9 },
         ⟨50, 0, 800/9⟩) := by
  constructor <;>
    norm_num +decide [walletExchange, serviceExchange, GetRate, repoExchange,
      updateBalanceTx, filterRates, mapGet, ratesLookup, isValidCurrency,
      maxRates]

/-- Claim C5 counterexample: a successful refresh does not replace the stored
quote set wholesale.  With stored set {GBP: 100} and fetched set {USD: 80},
the refresh upserts USD but the GBP entry — absent from the fetch — survives,
so the stored set does not equal the fetched set. -/
theorem refresh_is_merge_not_replace :
    updateRatesFromCB "u" (.ok [("USD", 80)]) [("GBP", 100)] =
        (.ok (), [("GBP", 100), ("USD", 80)]) ∧
      ratesLookup [("GBP", (100 : ℚ)), ("USD", 80)] "GBP" ≠
        ratesLookup [("USD", (80 : ℚ))] "GBP" := by
  constructor
  · norm_num +decide [updateRatesFromCB, upsertAll, upsertRate, ratesLookup]
  · decide

/-- Claim C5 as amended: every successful refresh upserts the fetched
entries into the stored set — each fetched currency ends at its fetched
rate, while entries for currencies absent from the fetch survive unchanged
(a merge, not a wholesale replacement). -/
theorem refresh_upserts_fetched_entries (store fetched : List (String × ℚ))
    (url : String) (hurl : url ≠ "")
    (hnd : (fetched.map Prod.fst).Nodup) (c : String) :
    (updateRatesFromCB url (.ok fetched) store).1 = .ok () ∧
      ratesLookup (updateRatesFromCB url (.ok fetched) store).2 c =
        ((ratesLookup fetched c).orElse fun _ => ratesLookup store c) := by
  unfold updateRatesFromCB
  rw [if_neg hurl]
  exact ⟨rfl, ratesLookup_upsertAll store fetched c hnd⟩

/-- Witness for the amended C5 at a concrete input: url "u", stored
{GBP: 100}, fetched {USD: 80}, queried currency GBP. -/
theorem refresh_upserts_fetched_entries_witness :
    ("u" : String) ≠ "" ∧
      (([("USD", (80 : ℚ))].map Prod.fst).Nodup) ∧
      ((updateRatesFromCB "u" (.ok [("USD", 80)]) [("GBP", 100)]).1 = .ok () ∧
        ratesLookup (updateRatesFromCB "u"
            (.ok [("USD", 80)]) [("GBP", 100)]).2 "GBP" =
          ((ratesLookup [("USD", (80 : ℚ))] "GBP").orElse
            fun _ => ratesLookup [("GBP", (100 : ℚ))] "GBP")) :=
  ⟨by decide, by decide,
    refresh_upserts_fetched_entries [("GBP", 100)] [("USD", 80)] "u"
      (by decide) (by decide) "GBP"⟩

/-- Claim C6: a refresh whose quote fetch fails returns an error before any
store mutation, so the previously stored snapshot is retained; two
consecutive failed refreshes leave the snapshot identical to its state
before the first failure. -/
theorem failed_refresh_retains_snapshot (url₁ url₂ e₁ e₂ : String)
    (store : List (String × ℚ)) :
    (updateRatesFromCB url₁ (.error e₁) store).1.isOk = false ∧
      (updateRatesFromCB url₁ (.error e₁) store).2 = store ∧
      (updateRatesFromCB url₂ (.error e₂)
          (updateRatesFromCB url₁ (.error e₁) store).2).2 = store := by
  unfold updateRatesFromCB
  rcases eq_or_ne url₁ "" with h₁ | h₁ <;> rcases eq_or_ne url₂ "" with h₂ | h₂ <;>
    simp [h₁, h₂, Except.isOk, Except.toBool]

/-- Claim C7: the spec requires the reciprocal branch to guard against a
zero stored quote and return an error instead of evaluating 1/rate.  The
exchanger's GetRate has no such guard: with the EUR quote stored as 0,
resolving EUR→USD takes the reciprocal branch and returns ok (1/0) — in the
Go float64 code this is +Inf with a nil error — rather than an error. -/
theorem zero_quote_reciprocal_returns_ok :
    exchangerGetRate [("EUR", 0)] "EUR" "USD" = .ok (1 / 0) := by
  norm_num +decide [exchangerGetRate, usdBranch, ratesLookup]

/-- Claim C8: for every ordered pair of supported currencies, with both base
quotes (USD and EUR) non-zero, the resolved rates for (a, b) and (b, a)
multiply to exactly 1 (the float code is exact up to rounding; the rational
model is exact). -/
theorem resolve_rate_roundtrip (quotes : List (String × ℚ)) (a b : String)
    (ha : isValidCurrency a = true) (hb : isValidCurrency b = true)
    (hu : mapGet quotes "USD" ≠ 0) (he : mapGet quotes "EUR" ≠ 0) :
    ∃ r₁ r₂, GetRate quotes a b = .ok r₁ ∧ GetRate quotes b a = .ok r₂ ∧
      r₁ * r₂ = 1 := by
  have ha' : a = "USD" ∨ a = "RUB" ∨ a = "EUR" := by
    simpa [isValidCurrency] using ha
  have hb' : b = "USD" ∨ b = "RUB" ∨ b = "EUR" := by
    simpa [isValidCurrency] using hb
  rcases ha' with rfl | rfl | rfl <;> rcases hb' with rfl | rfl | rfl
  · exact ⟨1, 1, GetRate_id _ _, GetRate_id _ _, one_mul 1⟩
  · exact ⟨mapGet quotes "USD", 1 / mapGet quotes "USD",
      GetRate_usd_rub quotes hu he, GetRate_rub_usd quotes hu he, by field_simp⟩
  · exact ⟨(1 / mapGet quotes "EUR") * mapGet quotes "USD",
      (1 / mapGet quotes "USD") * mapGet quotes "EUR",
      GetRate_usd_eur quotes hu he, GetRate_eur_usd quotes hu he, by field_simp⟩
  · exact ⟨1 / mapGet quotes "USD", mapGet quotes "USD",
      GetRate_rub_usd quotes hu he, GetRate_usd_rub quotes hu he, by field_simp⟩
  · exact ⟨1, 1, GetRate_id _ _, GetRate_id _ _, one_mul 1⟩
  · exact ⟨1 / mapGet quotes "EUR", mapGet quotes "EUR",
      GetRate_rub_eur quotes hu he, GetRate_eur_rub quotes hu he, by field_simp⟩
  · exact ⟨(1 / mapGet quotes "USD") * mapGet quotes "EUR",
      (1 / mapGet quotes "EUR") * mapGet quotes "USD",
      GetRate_eur_usd quotes hu he, GetRate_usd_eur quotes hu he, by field_simp⟩
  · exact ⟨mapGet quotes "EUR", 1 / mapGet quotes "EUR",
      GetRate_eur_rub quotes hu he, GetRate_rub_eur quotes hu he, by field_simp⟩
  · exact ⟨1, 1, GetRate_id _ _, GetRate_id _ _, one_mul 1⟩

/-- Witness for C8 at quotes USD=80, EUR=90, RUB=1 and the pair (USD, EUR). -/
theorem resolve_rate_roundtrip_witness :
    isValidCurrency "USD" = true ∧ isValidCurrency "EUR" = true ∧
      mapGet [("USD", (80 : ℚ)), ("EUR", 90), ("RUB", 1)] "USD" ≠ 0 ∧
      mapGet [("USD", (80 : ℚ)), ("EUR", 90), ("RUB", 1)] "EUR" ≠ 0 ∧
      (∃ r₁ r₂,
        GetRate [("USD", (80 : ℚ)), ("EUR", 90), ("RUB", 1)] "USD" "EUR" =
          .ok r₁ ∧
        GetRate [("USD", (80 : ℚ)), ("EUR", 90), ("RUB", 1)] "EUR" "USD" =
          .ok r₂ ∧ r₁ * r₂ = 1) :=
  ⟨rfl, rfl, by norm_num +decide [mapGet, ratesLookup],
    by norm_num +decide [mapGet, ratesLookup],
    resolve_rate_roundtrip [("USD", 80), ("EUR", 90), ("RUB", 1)] "USD" "EUR"
      rfl rfl (by norm_num +decide [mapGet, ratesLookup])
      (by norm_num +decide [mapGet, ratesLookup])⟩

/-- Claim C9: an exchange with identical source and target currency is
accepted for every valid user and positive amount: the rate resolves to 1
with no quote access, the reported exchanged amount equals the input amount,
and the debit and credit cancel, leaving every balance unchanged. -/
theorem identity_exchange_accepted (quotes : List (String × ℚ))
    (userID : Int) (c : String) (amount : ℚ) (b : Balance)
    (hid : 0 < userID) (hc : isValidCurrency c = true) (ha : 0 < amount) :
    walletExchange quotes userID c c amount b =
      (.ok { message := "Обмен выполнен успешно", exchangedAmount := amount,
             newBalance := b, rate := 1 }, b) := by
  have hc' : c = "USD" ∨ c = "RUB" ∨ c = "EUR" := by
    simpa [isValidCurrency] using hc
  have h₁ : ¬ userID ≤ 0 := not_le.mpr hid
  have h₂ : ¬ amount ≤ 0 := not_le.mpr ha
  unfold walletExchange serviceExchange
  rw [GetRate_id]
  rcases hc' with rfl | rfl | rfl <;>
    simp +decide [h₁, h₂, isValidCurrency, repoExchange, updateBalanceTx,
      maxRates, ratesLookup, ExchangeResponse.mk.injEq, Balance.mk.injEq]

/-- Witness for C9: user 7, currency EUR, amount 5, balance (1, 2, 3). -/
theorem identity_exchange_accepted_witness :
    (0 : Int) < 7 ∧ isValidCurrency "EUR" = true ∧ (0 : ℚ) < 5 ∧
      walletExchange [("USD", (80 : ℚ))] 7 "EUR" "EUR" 5 ⟨1, 2, 3⟩ =
        (.ok { message := "Обмен выполнен успешно", exchangedAmount := 5,
               newBalance := ⟨1, 2, 3⟩, rate := 1 }, ⟨1, 2, 3⟩) :=
  ⟨by decide, rfl, by norm_num,
    identity_exchange_accepted [("USD", 80)] 7 "EUR" 5 ⟨1, 2, 3⟩
      (by decide) rfl (by norm_num)⟩

/-- Claim C10: for every pair of distinct currencies, rate resolution fails
whenever the USD quote or the EUR quote is missing or zero (Go's map read
yields 0 for a missing key), even when the affected currency is not part of
the requested pair. -/
theorem missing_base_quote_fails_resolution (quotes : List (String × ℚ))
    (a b : String) (hab : a ≠ b)
    (hz : mapGet quotes "USD" = 0 ∨ mapGet quotes "EUR" = 0) :
    GetRate quotes a b = .error "базовые курсы недоступны" := by
  have hu := mapGet_filterRates quotes "USD" (by simp)
  have he := mapGet_filterRates quotes "EUR" (by simp)
  unfold GetRate
  rw [if_neg hab, if_pos]
  rw [hu, he]
  exact hz

/-- Witness for C10: quotes contain only EUR=90 (USD absent), resolving
RUB → EUR fails even though USD is not part of the pair. -/
theorem missing_base_quote_fails_resolution_witness :
    ("RUB" : String) ≠ "EUR" ∧
      (mapGet [("EUR", (90 : ℚ))] "USD" = 0 ∨
        mapGet [("EUR", (90 : ℚ))] "EUR" = 0) ∧
      GetRate [("EUR", (90 : ℚ))] "RUB" "EUR" =
        .error "базовые курсы недоступны" :=
  ⟨by decide, Or.inl (by norm_num +decide [mapGet, ratesLookup]),
    missing_base_quote_fails_resolution [("EUR", 90)] "RUB" "EUR" (by decide)
      (Or.inl (by norm_num +decide [mapGet, ratesLookup]))⟩
